import Mathlib

/-! Shallow embedding of the userspace L7 ingestion core in
`ebpf/l7_req/main.go` (package `l7_req`): the enum-to-string conversions,
the per-record decode performed by the L7 event pump inside `DeployAndWait`,
the log-message parser and log pump, and the tracepoint attach sequence with
its deferred releases. Machine integers are modelled as `Nat`; the only
arithmetic conversion in the decode path, `uint16(l7Event.Fd)`, is modelled
as `% 2 ^ 16`. -/

/-- Protocol discriminants, matching the `BPF_L7_PROTOCOL_*` iota block
(main.go lines 17-22). -/
def BPF_L7_PROTOCOL_UNKNOWN : Nat := 0

def BPF_L7_PROTOCOL_HTTP : Nat := 1

def BPF_L7_PROTOCOL_AMQP : Nat := 2

def BPF_L7_PROTOCOL_POSTGRES : Nat := 3

/-- Userspace protocol string constants (main.go lines 25-30). -/
def L7_PROTOCOL_HTTP : String := "HTTP"

def L7_PROTOCOL_AMQP : String := "AMQP"

def L7_PROTOCOL_POSTGRES : String := "POSTGRES"

def L7_PROTOCOL_UNKNOWN : String := "UNKNOWN"

/-- Embedding of `L7ProtocolConversion.String` (main.go lines 36-49): a
`switch` on the discriminant with cases HTTP, AMQP, POSTGRES, UNKNOWN and a
`default` branch returning the literal `"Unknown"`. -/
def L7ProtocolConversionString (e : Nat) : String :=
  if e = BPF_L7_PROTOCOL_HTTP then L7_PROTOCOL_HTTP
  else if e = BPF_L7_PROTOCOL_AMQP then L7_PROTOCOL_AMQP
  else if e = BPF_L7_PROTOCOL_POSTGRES then L7_PROTOCOL_POSTGRES
  else if e = BPF_L7_PROTOCOL_UNKNOWN then L7_PROTOCOL_UNKNOWN
  else "Unknown"

/-- HTTP method discriminants, matching the `BPF_METHOD_*` iota block
(main.go lines 52-63). -/
def BPF_METHOD_UNKNOWN : Nat := 0

def BPF_METHOD_GET : Nat := 1

def BPF_METHOD_POST : Nat := 2

def BPF_METHOD_PUT : Nat := 3

def BPF_METHOD_PATCH : Nat := 4

def BPF_METHOD_DELETE : Nat := 5

def BPF_METHOD_HEAD : Nat := 6

def BPF_METHOD_CONNECT : Nat := 7

def BPF_METHOD_OPTIONS : Nat := 8

def BPF_METHOD_TRACE : Nat := 9

/-- AMQP method discriminants (main.go lines 66-70). -/
def BPF_AMQP_METHOD_UNKNOWN : Nat := 0

def BPF_AMQP_METHOD_PUBLISH : Nat := 1

def BPF_AMQP_METHOD_DELIVER : Nat := 2

/-- Postgres method discriminants (main.go lines 73-92). -/
def BPF_POSTGRES_METHOD_UNKNOWN : Nat := 0

def BPF_POSTGRES_METHOD_STATEMENT_CLOSE_OR_CONN_TERMINATE : Nat := 1

def BPF_POSTGRES_METHOD_SIMPLE_QUERY : Nat := 2

/-- HTTP method string constants (main.go lines 95-105). -/
def GET : String := "GET"

def POST : String := "POST"

def PUT : String := "PUT"

def PATCH : String := "PATCH"

def DELETE : String := "DELETE"

def HEAD : String := "HEAD"

def CONNECT : String := "CONNECT"

def OPTIONS : String := "OPTIONS"

def TRACE : String := "TRACE"

/-- RabbitMQ method string constants (main.go lines 108-111). -/
def PUBLISH : String := "PUBLISH"

def DELIVER : String := "DELIVER"

/-- Postgres method string constants (main.go lines 114-117). -/
def CLOSE_OR_TERMINATE : String := "CLOSE_OR_TERMINATE"

def SIMPLE_QUERY : String := "SIMPLE_QUERY"

/-- Embedding of `HTTPMethodConversion.String` (main.go lines 123-146). -/
def HTTPMethodConversionString (e : Nat) : String :=
  if e = BPF_METHOD_GET then GET
  else if e = BPF_METHOD_POST then POST
  else if e = BPF_METHOD_PUT then PUT
  else if e = BPF_METHOD_PATCH then PATCH
  else if e = BPF_METHOD_DELETE then DELETE
  else if e = BPF_METHOD_HEAD then HEAD
  else if e = BPF_METHOD_CONNECT then CONNECT
  else if e = BPF_METHOD_OPTIONS then OPTIONS
  else if e = BPF_METHOD_TRACE then TRACE
  else "Unknown"

/-- Embedding of `RabbitMQMethodConversion.String` (main.go lines 152-161). -/
def RabbitMQMethodConversionString (e : Nat) : String :=
  if e = BPF_AMQP_METHOD_PUBLISH then PUBLISH
  else if e = BPF_AMQP_METHOD_DELIVER then DELIVER
  else "Unknown"

/-- Embedding of `PostgresMethodConversion.String` (main.go lines 167-176). -/
def PostgresMethodConversionString (e : Nat) : String :=
  if e = BPF_POSTGRES_METHOD_STATEMENT_CLOSE_OR_CONN_TERMINATE then CLOSE_OR_TERMINATE
  else if e = BPF_POSTGRES_METHOD_SIMPLE_QUERY then SIMPLE_QUERY
  else "Unknown"

/-- Embedding of `uint8ToBool` (main.go lines 508-510). -/
def uint8ToBool (num : Nat) : Bool :=
  num != 0

/-- Modelled from the spec: raw L7 event record (spec 3.1). The bpf2go
generated struct `bpfL7Event` is not under src/; field names follow the
accesses in main.go (`l7Event.Protocol`, `l7Event.Method`, ...), field order
follows spec 3.1. All integer fields are unsigned machine integers modelled
as `Nat`; `Payload` is the 512-byte buffer modelled as a byte list. -/
structure bpfL7Event where
  Fd : Nat
  WriteTimeNs : Nat
  Pid : Nat
  Status : Nat
  Duration : Nat
  Protocol : Nat
  Method : Nat
  Payload : List Nat
  PayloadSize : Nat
  PayloadReadComplete : Nat
  Failed : Nat
  IsTls : Nat
  deriving DecidableEq

/-- Embedding of the userspace `L7Event` struct (main.go lines 184-197), the
unit sent on the downstream channel. -/
structure L7Event where
  Fd : Nat
  Pid : Nat
  Status : Nat
  Duration : Nat
  Protocol : String
  Tls : Bool
  Method : String
  Payload : List Nat
  PayloadSize : Nat
  PayloadReadComplete : Bool
  Failed : Bool
  WriteTimeNs : Nat
  deriving DecidableEq

/-- Fields of the `l7tls event` debug log emitted at main.go lines 469-472:
`Uint16("fd", uint16(l7Event.Fd))`, `Uint32("pid", ...)`,
`Str("payload", string(l7Event.Payload[:]))`, method, protocol, status. -/
structure TlsDebugLog where
  fd : Nat
  pid : Nat
  payload : List Nat
  method : String
  protocol : String
  status : Nat
  deriving DecidableEq

/-- Embedding of the per-record body of the L7 event pump goroutine
(main.go lines 454-488): resolve the protocol string, select the method
table by that string (default `"Unknown"`), emit the `l7tls event` debug log
when `is_tls` is set (with `fd` narrowed by Go's `uint16` conversion, i.e.
`% 2 ^ 16`, and the full 512-byte payload buffer), and build the channel
event carrying every raw field. -/
def processL7Record (r : bpfL7Event) : Option TlsDebugLog × L7Event :=
  let protocol := L7ProtocolConversionString r.Protocol
  let method :=
    if protocol = L7_PROTOCOL_HTTP then HTTPMethodConversionString r.Method
    else if protocol = L7_PROTOCOL_AMQP then RabbitMQMethodConversionString r.Method
    else if protocol = L7_PROTOCOL_POSTGRES then PostgresMethodConversionString r.Method
    else "Unknown"
  let tlsLog : Option TlsDebugLog :=
    if uint8ToBool r.IsTls then
      some ⟨r.Fd % 2 ^ 16, r.Pid, r.Payload, method, protocol, r.Status⟩
    else none
  (tlsLog,
    ⟨r.Fd, r.Pid, r.Status, r.Duration, protocol, uint8ToBool r.IsTls, method,
      r.Payload, r.PayloadSize, uint8ToBool r.PayloadReadComplete,
      uint8ToBool r.Failed, r.WriteTimeNs⟩)

/-- Enumeration tables as (discriminant, string) pairs, assembled from the
constant blocks of main.go; used to state the round-trip property. -/
def protocolTable : List (Nat × String) :=
  [(BPF_L7_PROTOCOL_UNKNOWN, L7_PROTOCOL_UNKNOWN),
   (BPF_L7_PROTOCOL_HTTP, L7_PROTOCOL_HTTP),
   (BPF_L7_PROTOCOL_AMQP, L7_PROTOCOL_AMQP),
   (BPF_L7_PROTOCOL_POSTGRES, L7_PROTOCOL_POSTGRES)]

/-- HTTP method table, discriminant to string (main.go constant blocks). -/
def httpTable : List (Nat × String) :=
  [(BPF_METHOD_GET, GET), (BPF_METHOD_POST, POST), (BPF_METHOD_PUT, PUT),
   (BPF_METHOD_PATCH, PATCH), (BPF_METHOD_DELETE, DELETE),
   (BPF_METHOD_HEAD, HEAD), (BPF_METHOD_CONNECT, CONNECT),
   (BPF_METHOD_OPTIONS, OPTIONS), (BPF_METHOD_TRACE, TRACE)]

/-- AMQP method table. -/
def amqpTable : List (Nat × String) :=
  [(BPF_AMQP_METHOD_PUBLISH, PUBLISH), (BPF_AMQP_METHOD_DELIVER, DELIVER)]

/-- Postgres method table. -/
def postgresTable : List (Nat × String) :=
  [(BPF_POSTGRES_METHOD_STATEMENT_CLOSE_OR_CONN_TERMINATE, CLOSE_OR_TERMINATE),
   (BPF_POSTGRES_METHOD_SIMPLE_QUERY, SIMPLE_QUERY)]

/-- Looking a string back up in an enumeration table: the discriminant of the
first entry whose string equals `s`, if any. -/
def codeOfString (tbl : List (Nat × String)) (s : String) : Option Nat :=
  (tbl.find? (fun p => p.2 == s)).map (fun p => p.1)

/-- Out-of-range protocol discriminants fall through every `case` of the
`switch` into the `default` branch. -/
theorem L7ProtocolConversionString_of_ge (e : Nat) (h : 4 ≤ e) :
    L7ProtocolConversionString e = "Unknown" := by
  unfold L7ProtocolConversionString BPF_L7_PROTOCOL_HTTP BPF_L7_PROTOCOL_AMQP
    BPF_L7_PROTOCOL_POSTGRES BPF_L7_PROTOCOL_UNKNOWN
  repeat rw [if_neg (by omega)]

/-- Out-of-range HTTP method discriminants hit the `default` branch. -/
theorem HTTPMethodConversionString_of_ge (e : Nat) (h : 10 ≤ e) :
    HTTPMethodConversionString e = "Unknown" := by
  unfold HTTPMethodConversionString BPF_METHOD_GET BPF_METHOD_POST BPF_METHOD_PUT
    BPF_METHOD_PATCH BPF_METHOD_DELETE BPF_METHOD_HEAD BPF_METHOD_CONNECT
    BPF_METHOD_OPTIONS BPF_METHOD_TRACE
  repeat rw [if_neg (by omega)]

/-- Out-of-range AMQP method discriminants hit the `default` branch. -/
theorem RabbitMQMethodConversionString_of_ge (e : Nat) (h : 3 ≤ e) :
    RabbitMQMethodConversionString e = "Unknown" := by
  unfold RabbitMQMethodConversionString BPF_AMQP_METHOD_PUBLISH BPF_AMQP_METHOD_DELIVER
  repeat rw [if_neg (by omega)]

/-- Out-of-range Postgres method discriminants hit the `default` branch. -/
theorem PostgresMethodConversionString_of_ge (e : Nat) (h : 3 ≤ e) :
    PostgresMethodConversionString e = "Unknown" := by
  unfold PostgresMethodConversionString BPF_POSTGRES_METHOD_STATEMENT_CLOSE_OR_CONN_TERMINATE
    BPF_POSTGRES_METHOD_SIMPLE_QUERY
  repeat rw [if_neg (by omega)]

/-- Projection: the channel event's protocol string is the protocol
conversion applied to the raw discriminant. -/
theorem processL7Record_proto (r : bpfL7Event) :
    (processL7Record r).2.Protocol = L7ProtocolConversionString r.Protocol := rfl

/-- Projection: the channel event's method string is the `switch` on the
decoded protocol string (main.go lines 458-467). -/
theorem processL7Record_method (r : bpfL7Event) :
    (processL7Record r).2.Method =
      (if L7ProtocolConversionString r.Protocol = L7_PROTOCOL_HTTP then
        HTTPMethodConversionString r.Method
      else if L7ProtocolConversionString r.Protocol = L7_PROTOCOL_AMQP then
        RabbitMQMethodConversionString r.Method
      else if L7ProtocolConversionString r.Protocol = L7_PROTOCOL_POSTGRES then
        PostgresMethodConversionString r.Method
      else "Unknown") := rfl

/-- Projection: when `is_tls` is set, the `l7tls event` debug log is emitted
with `fd` narrowed to 16 bits and the full payload buffer. -/
theorem processL7Record_tlsLog (r : bpfL7Event) (h : uint8ToBool r.IsTls = true) :
    (processL7Record r).1 =
      some ⟨r.Fd % 2 ^ 16, r.Pid, r.Payload, (processL7Record r).2.Method,
        (processL7Record r).2.Protocol, r.Status⟩ := by
  simp only [processL7Record, h, if_true]


/-- Raw record of end-to-end scenario 3 of the spec: `protocol=9, method=3`,
remaining fields zero apart from `fd=12`. -/
def unknownProtoRecord : bpfL7Event :=
  ⟨12, 0, 0, 0, 0, 9, 3, [], 0, 0, 0, 0⟩

/-- C1 is false on the code: for the raw record with protocol discriminant 9
the decoded protocol string is the `default` branch literal `"Unknown"`, not
`"UNKNOWN"`, so it also lies outside the four-string set the claim lists. -/
theorem C1_cex :
    (processL7Record unknownProtoRecord).2.Protocol ≠ "UNKNOWN" ∧
    (processL7Record unknownProtoRecord).2.Protocol ∉
      (["HTTP", "AMQP", "POSTGRES", "UNKNOWN"] : List String) := by
  decide

/-- C1 (amended): for every raw L7 record whose protocol discriminant is
outside {0,1,2,3}, the decoded protocol string is `"Unknown"` (the `default`
branch of `L7ProtocolConversion.String`) and the method string is
`"Unknown"`; consequently every decoded event's protocol string is one of
`"HTTP"`, `"AMQP"`, `"POSTGRES"`, `"UNKNOWN"`, `"Unknown"`. -/
theorem C1_amended_thm :
    (∀ r : bpfL7Event, r.Protocol ∉ ([0, 1, 2, 3] : List Nat) →
      (processL7Record r).2.Protocol = "Unknown" ∧
      (processL7Record r).2.Method = "Unknown") ∧
    (∀ r : bpfL7Event, (processL7Record r).2.Protocol ∈
      (["HTTP", "AMQP", "POSTGRES", "UNKNOWN", "Unknown"] : List String)) := by
  constructor
  · intro r hr
    have h4 : 4 ≤ r.Protocol := by
      simp only [List.mem_cons, List.not_mem_nil, or_false] at hr
      omega
    have hp : L7ProtocolConversionString r.Protocol = "Unknown" :=
      L7ProtocolConversionString_of_ge _ h4
    refine ⟨(processL7Record_proto r).trans hp, ?_⟩
    have h1 : ¬(("Unknown" : String) = L7_PROTOCOL_HTTP) := by decide
    have h2 : ¬(("Unknown" : String) = L7_PROTOCOL_AMQP) := by decide
    have h3 : ¬(("Unknown" : String) = L7_PROTOCOL_POSTGRES) := by decide
    rw [processL7Record_method, hp, if_neg h1, if_neg h2, if_neg h3]
  · intro r
    rw [processL7Record_proto]
    rcases Nat.lt_or_ge r.Protocol 4 with h | h
    · generalize r.Protocol = p at h
      interval_cases p <;> decide
    · rw [L7ProtocolConversionString_of_ge _ h]
      decide

/-- Witness for the amended C1 at the scenario-3 record. -/
theorem C1_witness :
    (processL7Record unknownProtoRecord).2.Protocol = "Unknown" ∧
    (processL7Record unknownProtoRecord).2.Method = "Unknown" :=
  C1_amended_thm.1 unknownProtoRecord (by decide)

/-- Payload bytes of the literal HTTP GET scenario: `"GET / HTTP/1.1"`. -/
def payloadGET : List Nat :=
  [71, 69, 84, 32, 47, 32, 72, 84, 84, 80, 47, 49, 46, 49]

/-- Raw record of end-to-end scenario 1 of the spec: `protocol=1, method=1,
status=200, payload_size=14, payload="GET / HTTP/1.1",
payload_read_complete=1, is_tls=0, failed=0, duration_ns=125000, pid=7777,
fd=12, write_time_ns=1700000000`. -/
def httpGetRecord : bpfL7Event :=
  ⟨12, 1700000000, 7777, 200, 125000, 1, 1, payloadGET, 14, 1, 0, 0⟩

/-- C5: for protocol discriminant 1 (HTTP) the decoded method string agrees
with the HTTP method table (recovering the table entry for in-table
discriminants and `"Unknown"` off-table, which covers 0), and the literal
HTTP GET record of scenario 1 decodes to the expected channel event with all
non-enum fields carried verbatim. -/
theorem C5_http_method_table :
    (∀ r : bpfL7Event, r.Protocol = 1 →
      ((r.Method, (processL7Record r).2.Method) ∈ httpTable ∨
        ((processL7Record r).2.Method = "Unknown" ∧
          r.Method ∉ httpTable.map Prod.fst))) ∧
    (processL7Record httpGetRecord).2 =
      ⟨12, 7777, 200, 125000, "HTTP", false, "GET", payloadGET, 14, true,
        false, 1700000000⟩ := by
  constructor
  · intro r hproto
    have hp : L7ProtocolConversionString r.Protocol = L7_PROTOCOL_HTTP := by
      rw [hproto]; decide
    rw [processL7Record_method, hp, if_pos rfl]
    rcases Nat.lt_or_ge r.Method 10 with h | h
    · generalize r.Method = m at h
      interval_cases m <;> decide
    · right
      refine ⟨HTTPMethodConversionString_of_ge _ h, ?_⟩
      intro hm
      simp only [httpTable, BPF_METHOD_GET, BPF_METHOD_POST, BPF_METHOD_PUT,
        BPF_METHOD_PATCH, BPF_METHOD_DELETE, BPF_METHOD_HEAD,
        BPF_METHOD_CONNECT, BPF_METHOD_OPTIONS, BPF_METHOD_TRACE,
        List.map_cons, List.map_nil, List.mem_cons, List.not_mem_nil,
        or_false] at hm
      omega
  · decide

/-- Witness for C5 at the scenario-1 record. -/
theorem C5_witness :
    (httpGetRecord.Method, (processL7Record httpGetRecord).2.Method) ∈ httpTable ∨
      ((processL7Record httpGetRecord).2.Method = "Unknown" ∧
        httpGetRecord.Method ∉ httpTable.map Prod.fst) :=
  C5_http_method_table.1 httpGetRecord rfl

/-- C6: whenever the decoded protocol string is `"UNKNOWN"` (which the
conversion produces exactly for raw discriminant 0), the decoded method
string is `"Unknown"`, regardless of the raw method value. -/
theorem C6_unknown_proto_method (r : bpfL7Event)
    (h : (processL7Record r).2.Protocol = "UNKNOWN") :
    (processL7Record r).2.Method = "Unknown" := by
  rw [processL7Record_proto] at h
  have h1 : ¬(("UNKNOWN" : String) = L7_PROTOCOL_HTTP) := by decide
  have h2 : ¬(("UNKNOWN" : String) = L7_PROTOCOL_AMQP) := by decide
  have h3 : ¬(("UNKNOWN" : String) = L7_PROTOCOL_POSTGRES) := by decide
  rw [processL7Record_method, h, if_neg h1, if_neg h2, if_neg h3]

/-- Witness for C6 at a record with raw discriminant 0 and method 5. -/
theorem C6_witness :
    (processL7Record ⟨0, 0, 0, 0, 0, 0, 5, [], 0, 0, 0, 0⟩).2.Method = "Unknown" :=
  C6_unknown_proto_method ⟨0, 0, 0, 0, 0, 0, 5, [], 0, 0, 0, 0⟩ (by decide)

/-- C7: for each enumeration, converting a discriminant to its string and
looking that string back up in the same table recovers the discriminant if
and only if the discriminant is one of the table's keys; off-table
discriminants map to `"Unknown"`, which no table entry carries. -/
theorem C7_roundtrip (n : Nat) :
    (codeOfString protocolTable (L7ProtocolConversionString n) = some n ↔
      n ∈ protocolTable.map Prod.fst) ∧
    (codeOfString httpTable (HTTPMethodConversionString n) = some n ↔
      n ∈ httpTable.map Prod.fst) ∧
    (codeOfString amqpTable (RabbitMQMethodConversionString n) = some n ↔
      n ∈ amqpTable.map Prod.fst) ∧
    (codeOfString postgresTable (PostgresMethodConversionString n) = some n ↔
      n ∈ postgresTable.map Prod.fst) := by
  rcases Nat.lt_or_ge n 10 with h | h
  · interval_cases n <;> decide
  · rw [L7ProtocolConversionString_of_ge n (by omega),
      HTTPMethodConversionString_of_ge n (by omega),
      RabbitMQMethodConversionString_of_ge n (by omega),
      PostgresMethodConversionString_of_ge n (by omega)]
    refine ⟨?_, ?_, ?_, ?_⟩ <;> constructor <;> intro hx
    · rw [(by decide : codeOfString protocolTable "Unknown" = none)] at hx
      exact absurd hx (by simp)
    · exfalso
      simp only [protocolTable, BPF_L7_PROTOCOL_UNKNOWN, BPF_L7_PROTOCOL_HTTP,
        BPF_L7_PROTOCOL_AMQP, BPF_L7_PROTOCOL_POSTGRES, List.map_cons,
        List.map_nil, List.mem_cons, List.not_mem_nil, or_false] at hx
      omega
    · rw [(by decide : codeOfString httpTable "Unknown" = none)] at hx
      exact absurd hx (by simp)
    · exfalso
      simp only [httpTable, BPF_METHOD_GET, BPF_METHOD_POST, BPF_METHOD_PUT,
        BPF_METHOD_PATCH, BPF_METHOD_DELETE, BPF_METHOD_HEAD,
        BPF_METHOD_CONNECT, BPF_METHOD_OPTIONS, BPF_METHOD_TRACE,
        List.map_cons, List.map_nil, List.mem_cons, List.not_mem_nil,
        or_false] at hx
      omega
    · rw [(by decide : codeOfString amqpTable "Unknown" = none)] at hx
      exact absurd hx (by simp)
    · exfalso
      simp only [amqpTable, BPF_AMQP_METHOD_PUBLISH, BPF_AMQP_METHOD_DELIVER,
        List.map_cons, List.map_nil, List.mem_cons, List.not_mem_nil,
        or_false] at hx
      omega
    · rw [(by decide : codeOfString postgresTable "Unknown" = none)] at hx
      exact absurd hx (by simp)
    · exfalso
      simp only [postgresTable,
        BPF_POSTGRES_METHOD_STATEMENT_CLOSE_OR_CONN_TERMINATE,
        BPF_POSTGRES_METHOD_SIMPLE_QUERY, List.map_cons, List.map_nil,
        List.mem_cons, List.not_mem_nil, or_false] at hx
      omega

/-- Witness for C7 at discriminant 2. -/
theorem C7_witness :
    (codeOfString protocolTable (L7ProtocolConversionString 2) = some 2 ↔
      2 ∈ protocolTable.map Prod.fst) ∧
    (codeOfString httpTable (HTTPMethodConversionString 2) = some 2 ↔
      2 ∈ httpTable.map Prod.fst) ∧
    (codeOfString amqpTable (RabbitMQMethodConversionString 2) = some 2 ↔
      2 ∈ amqpTable.map Prod.fst) ∧
    (codeOfString postgresTable (PostgresMethodConversionString 2) = some 2 ↔
      2 ∈ postgresTable.map Prod.fst) :=
  C7_roundtrip 2

/-- C9: for every L7 record with `is_tls` set, the emitted `l7tls event`
debug log reports the fd field reduced modulo `2 ^ 16` (Go's `uint16`
conversion of the 64-bit fd), while the channel event carries the full fd. -/
theorem C9_tls_fd_truncated (r : bpfL7Event) (h : uint8ToBool r.IsTls = true) :
    ∃ d : TlsDebugLog, (processL7Record r).1 = some d ∧
      d.fd = r.Fd % 2 ^ 16 ∧ (processL7Record r).2.Fd = r.Fd := by
  exact ⟨_, processL7Record_tlsLog r h, rfl, rfl⟩

/-- Raw TLS record whose fd (70000) exceeds 16 bits. -/
def tlsFdRecord : bpfL7Event :=
  ⟨70000, 0, 5, 200, 0, 2, 1, [], 0, 0, 0, 1⟩

/-- Witness for C9: at fd 70000 the debug log reports 4464, not 70000. -/
theorem C9_witness :
    (∃ d : TlsDebugLog, (processL7Record tlsFdRecord).1 = some d ∧
      d.fd = tlsFdRecord.Fd % 2 ^ 16 ∧
      (processL7Record tlsFdRecord).2.Fd = tlsFdRecord.Fd) ∧
    tlsFdRecord.Fd % 2 ^ 16 ≠ tlsFdRecord.Fd :=
  ⟨C9_tls_fd_truncated tlsFdRecord rfl, by decide⟩

/-- C10: for every L7 record with `is_tls` set whose payload buffer has the
full 512 bytes, the payload field of the `l7tls event` debug log is the whole
512-byte buffer, not the `payload_size`-byte meaningful head. -/
theorem C10_tls_payload_full (r : bpfL7Event) (h : uint8ToBool r.IsTls = true)
    (hlen : r.Payload.length = 512) :
    ∃ d : TlsDebugLog, (processL7Record r).1 = some d ∧
      d.payload = r.Payload ∧ d.payload.length = 512 ∧
      (r.PayloadSize < 512 → d.payload ≠ r.Payload.take r.PayloadSize) := by
  refine ⟨_, processL7Record_tlsLog r h, rfl, hlen, ?_⟩
  intro hsz heq
  have hl := congrArg List.length heq
  rw [hlen, List.length_take, hlen] at hl
  omega

/-- Raw TLS record with a full 512-byte payload buffer: 14 meaningful bytes
followed by 498 bytes of stale filler (byte 88). -/
def tlsPayloadRecord : bpfL7Event :=
  ⟨9, 0, 5, 200, 0, 1, 1, payloadGET ++ List.replicate 498 88, 14, 1, 0, 1⟩

set_option maxRecDepth 8000 in
/-- Witness for C10 at a concrete 512-byte buffer with payload_size 14. -/
theorem C10_witness :
    ∃ d : TlsDebugLog, (processL7Record tlsPayloadRecord).1 = some d ∧
      d.payload = tlsPayloadRecord.Payload ∧ d.payload.length = 512 ∧
      (tlsPayloadRecord.PayloadSize < 512 →
        d.payload ≠ tlsPayloadRecord.Payload.take tlsPayloadRecord.PayloadSize) :=
  C10_tls_payload_full tlsPayloadRecord rfl (by simp [tlsPayloadRecord, payloadGET])

/-- Embedding of `findEndIndex` (main.go lines 512-519): index of the first
zero byte, or the buffer length when none occurs. The source iterates over a
fixed 100-byte array; the buffer is modelled as a byte list. -/
def findEndIndex : List Nat → Nat
  | [] => 0
  | v :: rest => if v = 0 then 0 else findEndIndex rest + 1

/-- Modelled from the spec: raw log message record (spec 3.1); the bpf2go
generated struct `bpfLogMessage` is not under src/. Field names follow the
accesses in main.go (`logMsg.Level`, `logMsg.FuncName`, `logMsg.LogMsg`,
`logMsg.Arg1`..`Arg3`, `logMsg.Pid`). -/
structure bpfLogMessage where
  Level : Nat
  Pid : Nat
  FuncName : List Nat
  LogMsg : List Nat
  Arg1 : Nat
  Arg2 : Nat
  Arg3 : Nat
  deriving DecidableEq

/-- Tests whether the second byte list occurs at the head of the first. -/
def matchesHead : List Nat → List Nat → Bool
  | _, [] => true
  | [], _ :: _ => false
  | a :: as, b :: bs => a == b && matchesHead as bs

/-- Supports the `bytes.SplitN` model: the part of `s` before the leftmost
occurrence of `sep` together with the remainder after that occurrence, or
`none` when `sep` does not occur in `s`. -/
def findSep (sep : List Nat) : List Nat → Option (List Nat × List Nat)
  | [] => if sep.isEmpty then some ([], []) else none
  | a :: as =>
    if matchesHead (a :: as) sep then some ([], (a :: as).drop sep.length)
    else
      match findSep sep as with
      | some (b, r) => some (a :: b, r)
      | none => none

/-- Model of Go `bytes.SplitN(s, sep, n)` for the non-empty separators used
in main.go: split around the leftmost occurrences of `sep` into at most `n`
parts; the last part carries the unsplit remainder. -/
def splitN : List Nat → List Nat → Nat → List (List Nat)
  | _, _, 0 => []
  | s, _, 1 => [s]
  | s, sep, n + 2 =>
    match findSep sep s with
    | none => [s]
    | some (b, r) => b :: splitN r sep (n + 1)

/-- Bytes of the `" -- "` delimiter (space, dash, dash, space). -/
def sepDashDash : List Nat := [32, 45, 45, 32]

/-- Byte list holding the `"|"` separator. -/
def sepBar : List Nat := [124]

/-- Levels of the host logger calls appearing in main.go
(Debug/Info/Warn/Error). -/
inductive LogLevel where
  | debug
  | info
  | warn
  | error
  deriving DecidableEq

/-- Host log entries emitted by the log pump: `plain` for the
`Warn().Msgf(text, raw)` calls quoting raw bytes, `structured` for the
`ebpf-log` record carrying func, pid, the three named 64-bit arguments and
the message body. -/
inductive HostLog where
  | plain (lvl : LogLevel) (text : String) (raw : List Nat)
  | structured (lvl : LogLevel) (funcName : List Nat) (pid : Nat)
      (arg1 arg2 arg3 : List Nat × Nat) (logMsg : List Nat)
  deriving DecidableEq

/-- Level carried by a host log entry. -/
def HostLog.level : HostLog → LogLevel
  | .plain l _ _ => l
  | .structured l _ _ _ _ _ _ => l

/-- Tests whether a host log entry is the structured `ebpf-log` record. -/
def HostLog.isStructured : HostLog → Bool
  | .plain _ _ _ => false
  | .structured _ _ _ _ _ _ _ => true

/-- Embedding of the `parseLogMessage` closure (main.go lines 372-397):
`bytes.SplitN(input, " -- ", 2)` must yield two parts, then
`bytes.SplitN(parts[1], "|", 3)` must yield three parts; on either failure a
warn quoting `input` is emitted and nil is returned, on success the three
tokens are zipped with `Arg1`..`Arg3` and `parts[0]` is returned. The pair
collects the warn logs the closure emits alongside its return value. -/
def parseLogMessage (input : List Nat) (logMsg : bpfLogMessage) :
    List HostLog ×
      Option (List Nat × (List Nat × Nat) × (List Nat × Nat) × (List Nat × Nat)) :=
  match splitN input sepDashDash 2 with
  | [p0, p1] =>
    match splitN p1 sepBar 3 with
    | [n1, n2, n3] =>
      ([], some (p0, (n1, logMsg.Arg1), (n2, logMsg.Arg2), (n3, logMsg.Arg3)))
    | _ => ([.plain .warn "invalid ebpf log message not 3 args" input], none)
  | _ => ([.plain .warn "invalid ebpf log message" input], none)

/-- Embedding of the level `switch` (main.go lines 406-423): levels 0..3
emit one structured `ebpf-log` entry at debug/info/warn/error respectively;
the switch has no default, so any other level emits nothing. -/
def emitAtLevel (level : Nat) (funcName : List Nat) (pid : Nat)
    (a1 a2 a3 : List Nat × Nat) (body : List Nat) : List HostLog :=
  if level = 0 then [.structured .debug funcName pid a1 a2 a3 body]
  else if level = 1 then [.structured .info funcName pid a1 a2 a3 body]
  else if level = 2 then [.structured .warn funcName pid a1 a2 a3 body]
  else if level = 3 then [.structured .error funcName pid a1 a2 a3 body]
  else []

/-- Embedding of the log pump's per-record `read` body once a non-empty
sample is in hand (main.go lines 346-423): trim `FuncName` and `LogMsg` at
their first zero byte, run `parseLogMessage` on the trimmed message (whose
warn logs are emitted), on nil emit one further warn quoting the full raw
`LogMsg` buffer and drop the record, otherwise switch on `Level`. -/
def processLogRecord (m : bpfLogMessage) : List HostLog :=
  let logMessage := m.LogMsg.take (findEndIndex m.LogMsg)
  let funcName := m.FuncName.take (findEndIndex m.FuncName)
  match parseLogMessage logMessage m with
  | (warns, none) => warns ++ [.plain .warn "invalid ebpf log message" m.LogMsg]
  | (warns, some (body, a1, a2, a3)) =>
      warns ++ emitAtLevel m.Level funcName m.Pid a1 a2 a3 body

/-- Modelled from the spec for the refinement comparison in C3: the grammar
`BODY " -- " NAME "|" NAME "|" NAME` with bar-free names, exactly three of
them after the first `" -- "` delimiter; equivalently, the part after the
first delimiter contains exactly two bar bytes. -/
def specLogGrammar (s : List Nat) : Bool :=
  match findSep sepDashDash s with
  | none => false
  | some (_, rest) => rest.count 124 = 2

/-- Unfolding of the `bytes.SplitN` model at limit 2. -/
theorem splitN_two_eq (s sep : List Nat) :
    splitN s sep 2 = match findSep sep s with
      | none => [s]
      | some (b, r) => [b, r] := rfl

/-- Unfolding of the `bytes.SplitN` model at limit 3. -/
theorem splitN_three_eq (s sep : List Nat) :
    splitN s sep 3 = match findSep sep s with
      | none => [s]
      | some (b, r) => b :: splitN r sep 2 := rfl

/-- Soundness of `findSep` for a single-byte separator: a hit decomposes the
input around the first occurrence, whose left part is separator-free. -/
theorem findSep_single_some (c : Nat) :
    ∀ (s b r : List Nat), findSep [c] s = some (b, r) → s = b ++ c :: r ∧ c ∉ b := by
  intro s
  induction s with
  | nil => intro b r h; simp [findSep] at h
  | cons a as ih =>
    intro b r h
    by_cases hac : a = c
    · subst hac
      have hm : matchesHead (a :: as) [a] = true := by simp [matchesHead]
      rw [findSep, if_pos hm] at h
      simp only [List.drop_succ_cons, List.drop_zero, Option.some.injEq, Prod.mk.injEq] at h
      obtain ⟨hb, hr⟩ := h
      subst hb; subst hr
      simp
    · have hm : matchesHead (a :: as) [c] = false := by
        simp [matchesHead]; omega
      rw [findSep, if_neg (by simp [hm])] at h
      rcases hf : findSep [c] as with _ | ⟨b1, r1⟩ <;> rw [hf] at h
      · simp at h
      · simp only [Option.some.injEq, Prod.mk.injEq] at h
        obtain ⟨hb, hr⟩ := h
        obtain ⟨hs, hnb⟩ := ih b1 r1 hf
        subst hb; subst hr; subst hs
        constructor
        · simp
        · simp only [List.mem_cons, not_or]
          exact ⟨fun hca => hac hca.symm, hnb⟩

/-- Completeness of `findSep` for a single-byte separator: a miss means the
byte does not occur. -/
theorem findSep_single_none (c : Nat) :
    ∀ (s : List Nat), findSep [c] s = none → c ∉ s := by
  intro s
  induction s with
  | nil => intro _; simp
  | cons a as ih =>
    intro h
    by_cases hac : a = c
    · subst hac
      have hm : matchesHead (a :: as) [a] = true := by simp [matchesHead]
      rw [findSep, if_pos hm] at h
      simp at h
    · have hm : matchesHead (a :: as) [c] = false := by
        simp [matchesHead]; omega
      rw [findSep, if_neg (by simp [hm])] at h
      rcases hf : findSep [c] as with _ | ⟨b1, r1⟩ <;> rw [hf] at h
      · simp only [List.mem_cons, not_or]
        exact ⟨fun hca => hac hca.symm, ih hf⟩
      · simp at h

/-- Counting a byte across the decomposition induced by its first occurrence. -/
theorem count_decomp (c : Nat) (b r : List Nat) (hnb : c ∉ b) :
    (b ++ c :: r).count c = r.count c + 1 := by
  rw [List.count_append, List.count_cons_self, List.count_eq_zero.mpr hnb]
  omega

/-- Case analysis of `bytes.SplitN(r, "|", 3)`: three parts arise exactly
when `r` holds at least two bars, and then `r` decomposes around the first
two bars with bar-free first and second tokens (the third keeps any further
bars); otherwise fewer parts arise. -/
theorem splitN_bar3_cases (r : List Nat) :
    (∃ x y z, splitN r sepBar 3 = [x, y, z] ∧ r = x ++ 124 :: (y ++ 124 :: z) ∧
      (124 : Nat) ∉ x ∧ (124 : Nat) ∉ y ∧ 2 ≤ r.count 124) ∨
    (r.count 124 < 2 ∧
      (splitN r sepBar 3 = [r] ∨ ∃ x y, splitN r sepBar 3 = [x, y])) := by
  rcases hf : findSep sepBar r with _ | ⟨x, rest⟩
  · right
    have hnr : (124 : Nat) ∉ r := findSep_single_none 124 r hf
    refine ⟨?_, Or.inl ?_⟩
    · have h0 : r.count 124 = 0 := List.count_eq_zero.mpr hnr
      omega
    · rw [splitN_three_eq, hf]
  · obtain ⟨hr, hnx⟩ := findSep_single_some 124 r x rest hf
    rcases hf2 : findSep sepBar rest with _ | ⟨y, rest2⟩
    · right
      have hnrest : (124 : Nat) ∉ rest := findSep_single_none 124 rest hf2
      refine ⟨?_, Or.inr ⟨x, rest, ?_⟩⟩
      · have h0 : rest.count 124 = 0 := List.count_eq_zero.mpr hnrest
        rw [hr, count_decomp 124 x rest hnx]
        omega
      · simp only [splitN_three_eq, hf, splitN_two_eq, hf2]
    · left
      obtain ⟨hrest, hny⟩ := findSep_single_some 124 rest y rest2 hf2
      refine ⟨x, y, rest2, ?_, ?_, hnx, hny, ?_⟩
      · simp only [splitN_three_eq, hf, splitN_two_eq, hf2]
      · rw [hr, hrest]
      · rw [hr, count_decomp 124 x rest hnx, hrest, count_decomp 124 y rest2 hny]
        omega

/-- Acceptance of the log-message parser: it succeeds exactly on inputs
containing `" -- "` whose part after the first occurrence holds at least two
bar bytes. -/
theorem parseLogMessage_accept (input : List Nat) (m : bpfLogMessage) :
    ((parseLogMessage input m).2.isSome = true) ↔
      (∃ b r, findSep sepDashDash input = some (b, r) ∧ 2 ≤ r.count 124) := by
  rcases hf : findSep sepDashDash input with _ | ⟨b, r⟩
  · have hs : splitN input sepDashDash 2 = [input] := by rw [splitN_two_eq, hf]
    simp [parseLogMessage, hs]
  · have hs : splitN input sepDashDash 2 = [b, r] := by rw [splitN_two_eq, hf]
    rcases splitN_bar3_cases r with ⟨x, y, z, hsp, hrdec, hnx, hny, hcnt⟩ |
      ⟨hcnt, hsp | ⟨x, y, hsp⟩⟩
    · simp only [parseLogMessage, hs, hsp]
      simp only [Option.isSome_some, true_iff]
      exact ⟨b, r, rfl, hcnt⟩
    · simp only [parseLogMessage, hs, hsp]
      simp only [Option.isSome_none, Bool.false_eq_true, false_iff, not_exists]
      intro b1 r1 hx
      simp only [Option.some.injEq, Prod.mk.injEq] at hx
      obtain ⟨⟨hb, hr⟩, h2⟩ := hx
      subst hr
      omega
    · simp only [parseLogMessage, hs, hsp]
      simp only [Option.isSome_none, Bool.false_eq_true, false_iff, not_exists]
      intro b1 r1 hx
      simp only [Option.some.injEq, Prod.mk.injEq] at hx
      obtain ⟨⟨hb, hr⟩, h2⟩ := hx
      subst hr
      omega

/-- Decomposition of a successful parse: the argument values are
`Arg1`..`Arg3` in order and the three names are the first two bar-delimited
tokens after the first `" -- "` plus the remainder, which may itself hold
further bars. -/
theorem parseLogMessage_some_decomp (input : List Nat) (m : bpfLogMessage)
    (body n1 n2 n3 : List Nat) (v1 v2 v3 : Nat)
    (h : (parseLogMessage input m).2 = some (body, (n1, v1), (n2, v2), (n3, v3))) :
    v1 = m.Arg1 ∧ v2 = m.Arg2 ∧ v3 = m.Arg3 ∧
    findSep sepDashDash input = some (body, n1 ++ 124 :: (n2 ++ 124 :: n3)) ∧
    (124 : Nat) ∉ n1 ∧ (124 : Nat) ∉ n2 := by
  rcases hf : findSep sepDashDash input with _ | ⟨b, r⟩
  · have hs : splitN input sepDashDash 2 = [input] := by rw [splitN_two_eq, hf]
    simp [parseLogMessage, hs] at h
  · have hs : splitN input sepDashDash 2 = [b, r] := by rw [splitN_two_eq, hf]
    rcases splitN_bar3_cases r with ⟨x, y, z, hsp, hrdec, hnx, hny, hcnt⟩ |
      ⟨hcnt, hsp | ⟨x, y, hsp⟩⟩
    · simp only [parseLogMessage, hs, hsp, Option.some.injEq, Prod.mk.injEq] at h
      obtain ⟨hb, ⟨hn1, hv1⟩, ⟨hn2, hv2⟩, hn3, hv3⟩ := h
      subst hb; subst hn1; subst hn2; subst hn3
      subst hv1; subst hv2; subst hv3
      refine ⟨rfl, rfl, rfl, ?_, hnx, hny⟩
      simp [hrdec]
    · simp [parseLogMessage, hs, hsp] at h
    · simp [parseLogMessage, hs, hsp] at h

/-- Shape of every parser result: a single warn (quoting the input) with nil,
or no warn with a successful parse. -/
theorem parseLogMessage_cases (input : List Nat) (m : bpfLogMessage) :
    (∃ t, parseLogMessage input m = ([HostLog.plain LogLevel.warn t input], none)) ∨
    ∃ x, parseLogMessage input m = ([], some x) := by
  rcases hs : splitN input sepDashDash 2 with _ | ⟨p0, t⟩
  · exact Or.inl ⟨"invalid ebpf log message", by simp [parseLogMessage, hs]⟩
  rcases t with _ | ⟨p1, t2⟩
  · exact Or.inl ⟨"invalid ebpf log message", by simp [parseLogMessage, hs]⟩
  rcases t2 with _ | ⟨q, t3⟩
  · rcases hs2 : splitN p1 sepBar 3 with _ | ⟨n1, u⟩
    · exact Or.inl ⟨"invalid ebpf log message not 3 args", by simp [parseLogMessage, hs, hs2]⟩
    rcases u with _ | ⟨n2, u2⟩
    · exact Or.inl ⟨"invalid ebpf log message not 3 args", by simp [parseLogMessage, hs, hs2]⟩
    rcases u2 with _ | ⟨n3, u3⟩
    · exact Or.inl ⟨"invalid ebpf log message not 3 args", by simp [parseLogMessage, hs, hs2]⟩
    rcases u3 with _ | ⟨w, u4⟩
    · exact Or.inr ⟨(p0, (n1, m.Arg1), (n2, m.Arg2), (n3, m.Arg3)),
        by simp [parseLogMessage, hs, hs2]⟩
    · exact Or.inl ⟨"invalid ebpf log message not 3 args", by simp [parseLogMessage, hs, hs2]⟩
  · exact Or.inl ⟨"invalid ebpf log message", by simp [parseLogMessage, hs]⟩

/-- When the parser fails, the pump emits the parser's warn followed by its
own warn quoting the full raw buffer. -/
theorem processLogRecord_of_none (m : bpfLogMessage) (t : String)
    (hp : parseLogMessage (m.LogMsg.take (findEndIndex m.LogMsg)) m =
      ([HostLog.plain LogLevel.warn t (m.LogMsg.take (findEndIndex m.LogMsg))], none)) :
    processLogRecord m =
      [HostLog.plain LogLevel.warn t (m.LogMsg.take (findEndIndex m.LogMsg)),
       HostLog.plain LogLevel.warn "invalid ebpf log message" m.LogMsg] := by
  simp [processLogRecord, hp]

/-- When the parser succeeds, the pump's output is the level switch alone. -/
theorem processLogRecord_of_some (m : bpfLogMessage)
    (body : List Nat) (a1 a2 a3 : List Nat × Nat)
    (hp : parseLogMessage (m.LogMsg.take (findEndIndex m.LogMsg)) m =
      ([], some (body, a1, a2, a3))) :
    processLogRecord m =
      emitAtLevel m.Level (m.FuncName.take (findEndIndex m.FuncName)) m.Pid
        a1 a2 a3 body := by
  simp [processLogRecord, hp]

/-- Log record whose message is `"x -- a|b|c|d"` at level 1 (info): the part
after `" -- "` splits into four bar-separated tokens, so it lies outside the
spec's three-name grammar, yet `bytes.SplitN(..., 3)` caps the split at
three tokens and the record is accepted. -/
def fourTokenMsg : bpfLogMessage :=
  ⟨1, 42, [102], [120, 32, 45, 45, 32, 97, 124, 98, 124, 99, 124, 100], 7, 8, 9⟩

/-- C3 is false on the code: the byte string `"x -- a|b|c|d"` lies outside
the grammar `BODY " -- " NAME "|" NAME "|" NAME` (four bar-separated tokens
follow the delimiter), yet the log pump emits a structured host log for it,
with third argument name `"c|d"`. -/
theorem C3_cex :
    specLogGrammar [120, 32, 45, 45, 32, 97, 124, 98, 124, 99, 124, 100] = false ∧
    (processLogRecord fourTokenMsg).filter (fun x => x.isStructured) =
      [HostLog.structured LogLevel.info [102] 42 ([97], 7) ([98], 8)
        ([99, 124, 100], 9) [120]] := by
  decide

/-- C3 (amended): the parser accepts exactly the byte strings containing
`" -- "` with at least two bar bytes after the first occurrence; on success
the three argument names are the first two bar-delimited tokens after the
first delimiter plus the remainder (which may itself hold bars), zipped in
order with `arg1, arg2, arg3`; rejected strings yield no structured host
log, and accepted records yield exactly one structured host log provided the
level is in {0,1,2,3}. -/
theorem C3_parser_amended :
    (∀ (input : List Nat) (m : bpfLogMessage),
      ((parseLogMessage input m).2.isSome = true) ↔
        ∃ b r, findSep sepDashDash input = some (b, r) ∧ 2 ≤ r.count 124) ∧
    (∀ (input : List Nat) (m : bpfLogMessage) (body n1 n2 n3 : List Nat)
        (v1 v2 v3 : Nat),
      (parseLogMessage input m).2 = some (body, (n1, v1), (n2, v2), (n3, v3)) →
        v1 = m.Arg1 ∧ v2 = m.Arg2 ∧ v3 = m.Arg3 ∧
        findSep sepDashDash input = some (body, n1 ++ 124 :: (n2 ++ 124 :: n3)) ∧
        (124 : Nat) ∉ n1 ∧ (124 : Nat) ∉ n2) ∧
    (∀ m : bpfLogMessage,
      (parseLogMessage (m.LogMsg.take (findEndIndex m.LogMsg)) m).2 = none →
      ∀ x ∈ processLogRecord m, x.isStructured = false) ∧
    (∀ (m : bpfLogMessage) (body : List Nat) (a1 a2 a3 : List Nat × Nat),
      (parseLogMessage (m.LogMsg.take (findEndIndex m.LogMsg)) m).2 =
          some (body, a1, a2, a3) →
      m.Level ∈ ([0, 1, 2, 3] : List Nat) →
      ∃ lvl, (processLogRecord m).filter (fun x => x.isStructured) =
        [HostLog.structured lvl (m.FuncName.take (findEndIndex m.FuncName))
          m.Pid a1 a2 a3 body]) := by
  refine ⟨parseLogMessage_accept, parseLogMessage_some_decomp, ?_, ?_⟩
  · intro m h x hx
    rcases parseLogMessage_cases (m.LogMsg.take (findEndIndex m.LogMsg)) m with
      ⟨t, hp⟩ | ⟨w, hp⟩
    · rw [processLogRecord_of_none m t hp] at hx
      simp only [List.mem_cons, List.not_mem_nil, or_false] at hx
      rcases hx with h1 | h1 <;> subst h1 <;> rfl
    · rw [hp] at h
      simp at h
  · intro m body a1 a2 a3 h hlv
    rcases parseLogMessage_cases (m.LogMsg.take (findEndIndex m.LogMsg)) m with
      ⟨t, hp⟩ | ⟨w, hp⟩
    · rw [hp] at h
      simp at h
    · rw [hp] at h
      simp only [Option.some.injEq] at h
      subst h
      have hpr := processLogRecord_of_some m body a1 a2 a3 hp
      simp only [List.mem_cons, List.not_mem_nil, or_false] at hlv
      rcases hlv with h0 | h1 | h2 | h3
      · exact ⟨LogLevel.debug, by rw [hpr, h0]; rfl⟩
      · exact ⟨LogLevel.info, by rw [hpr, h1]; rfl⟩
      · exact ⟨LogLevel.warn, by rw [hpr, h2]; rfl⟩
      · exact ⟨LogLevel.error, by rw [hpr, h3]; rfl⟩

/-- Log record of end-to-end scenario 4 of the spec: level 1 (info), pid 42,
`func_name = "handle_read\0..."`, `log_msg = "read done -- fd|len|cpu\0"`,
args 7, 128, 3 (with one stale byte after each terminator). -/
def validLogMsg : bpfLogMessage :=
  ⟨1, 42,
   [104, 97, 110, 100, 108, 101, 95, 114, 101, 97, 100, 0, 120],
   [114, 101, 97, 100, 32, 100, 111, 110, 101, 32, 45, 45, 32, 102, 100,
    124, 108, 101, 110, 124, 99, 112, 117, 0],
   7, 128, 3⟩

/-- Witness for the amended C3: parsing the trimmed scenario-4 message
`"read done -- fd|len|cpu"` zips the tokens `fd`, `len`, `cpu` with args
7, 128, 3 and decomposes the input around the delimiters. -/
theorem C3_witness :
    7 = validLogMsg.Arg1 ∧ 128 = validLogMsg.Arg2 ∧ 3 = validLogMsg.Arg3 ∧
    findSep sepDashDash
        [114, 101, 97, 100, 32, 100, 111, 110, 101, 32, 45, 45, 32, 102,
         100, 124, 108, 101, 110, 124, 99, 112, 117] =
      some ([114, 101, 97, 100, 32, 100, 111, 110, 101],
        [102, 100] ++ 124 :: ([108, 101, 110] ++ 124 :: [99, 112, 117])) ∧
    (124 : Nat) ∉ [102, 100] ∧ (124 : Nat) ∉ [108, 101, 110] :=
  C3_parser_amended.2.1
    [114, 101, 97, 100, 32, 100, 111, 110, 101, 32, 45, 45, 32, 102, 100,
     124, 108, 101, 110, 124, 99, 112, 117]
    validLogMsg [114, 101, 97, 100, 32, 100, 111, 110, 101]
    [102, 100] [108, 101, 110] [99, 112, 117] 7 128 3 (by decide)

/-- Log record whose message `"no delim"` lacks the `" -- "` delimiter. -/
def noDelimMsg : bpfLogMessage :=
  ⟨2, 7, [103], [110, 111, 32, 100, 101, 108, 105, 109], 1, 2, 3⟩

/-- C4 is false on the code: for the malformed record with message
`"no delim"` the log pump emits two WARN host logs (one from inside the
parser, one from the pump), not exactly one. -/
theorem C4_cex :
    ((processLogRecord noDelimMsg).filter
      (fun x => x.level == LogLevel.warn)).length = 2 ∧
    ((processLogRecord noDelimMsg).filter
      (fun x => x.level == LogLevel.warn)).length ≠ 1 := by
  decide

/-- C4 (amended): for every malformed log record the pump emits exactly two
WARN host logs, the parser's (quoting the null-trimmed message) followed by
the pump's (quoting the full raw buffer), and no structured host log. -/
theorem C4_two_warns (m : bpfLogMessage)
    (h : (parseLogMessage (m.LogMsg.take (findEndIndex m.LogMsg)) m).2 = none) :
    (∃ t, processLogRecord m =
      [HostLog.plain LogLevel.warn t (m.LogMsg.take (findEndIndex m.LogMsg)),
       HostLog.plain LogLevel.warn "invalid ebpf log message" m.LogMsg]) ∧
    ((processLogRecord m).filter (fun x => x.level == LogLevel.warn)).length = 2 ∧
    ∀ x ∈ processLogRecord m, x.isStructured = false := by
  rcases parseLogMessage_cases (m.LogMsg.take (findEndIndex m.LogMsg)) m with
    ⟨t, hp⟩ | ⟨w, hp⟩
  · have hpr := processLogRecord_of_none m t hp
    refine ⟨⟨t, hpr⟩, ?_, ?_⟩
    · rw [hpr]
      rfl
    · intro x hx
      rw [hpr] at hx
      simp only [List.mem_cons, List.not_mem_nil, or_false] at hx
      rcases hx with h1 | h1 <;> subst h1 <;> rfl
  · rw [hp] at h
    simp at h

/-- Log record of end-to-end scenario 6 of the spec: `"x -- a|b"`, only two
bar-separated tokens after the delimiter. -/
def wrongArgsMsg : bpfLogMessage :=
  ⟨1, 7, [103], [120, 32, 45, 45, 32, 97, 124, 98], 1, 2, 3⟩

/-- Witness for the amended C4 at the scenario-6 record. -/
theorem C4_witness :
    ((processLogRecord wrongArgsMsg).filter
      (fun x => x.level == LogLevel.warn)).length = 2 :=
  (C4_two_warns wrongArgsMsg (by decide)).2.1

/-- Log record with level 9 and the malformed message `"bad"`. -/
def badLevelMsg : bpfLogMessage :=
  ⟨9, 1, [102], [98, 97, 100], 0, 0, 0⟩

/-- C8 is false on the code: a record with level 9 outside {0,1,2,3} whose
message is malformed still emits host logs (the two parse warns), so the
record is not silently dropped. -/
theorem C8_cex :
    processLogRecord badLevelMsg ≠ [] ∧
    processLogRecord badLevelMsg =
      [HostLog.plain LogLevel.warn "invalid ebpf log message" [98, 97, 100],
       HostLog.plain LogLevel.warn "invalid ebpf log message" [98, 97, 100]] := by
  decide

/-- C8 (amended): for records whose message parses successfully, a level
outside {0,1,2,3} yields no host log at all, and levels 0..3 yield exactly
the one structured log at debug/info/warn/error respectively; malformed
records emit their parse warns regardless of level. -/
theorem C8_level_switch (m : bpfLogMessage) (body : List Nat)
    (a1 a2 a3 : List Nat × Nat)
    (h : (parseLogMessage (m.LogMsg.take (findEndIndex m.LogMsg)) m).2 =
      some (body, a1, a2, a3)) :
    (m.Level ∉ ([0, 1, 2, 3] : List Nat) → processLogRecord m = []) ∧
    (m.Level = 0 → processLogRecord m =
      [HostLog.structured LogLevel.debug (m.FuncName.take (findEndIndex m.FuncName))
        m.Pid a1 a2 a3 body]) ∧
    (m.Level = 1 → processLogRecord m =
      [HostLog.structured LogLevel.info (m.FuncName.take (findEndIndex m.FuncName))
        m.Pid a1 a2 a3 body]) ∧
    (m.Level = 2 → processLogRecord m =
      [HostLog.structured LogLevel.warn (m.FuncName.take (findEndIndex m.FuncName))
        m.Pid a1 a2 a3 body]) ∧
    (m.Level = 3 → processLogRecord m =
      [HostLog.structured LogLevel.error (m.FuncName.take (findEndIndex m.FuncName))
        m.Pid a1 a2 a3 body]) := by
  rcases parseLogMessage_cases (m.LogMsg.take (findEndIndex m.LogMsg)) m with
    ⟨t, hp⟩ | ⟨w, hp⟩
  · rw [hp] at h
    simp at h
  · rw [hp] at h
    simp only [Option.some.injEq] at h
    subst h
    have hpr := processLogRecord_of_some m body a1 a2 a3 hp
    refine ⟨?_, ?_, ?_, ?_, ?_⟩
    · intro hlv
      simp only [List.mem_cons, List.not_mem_nil, or_false, not_or] at hlv
      obtain ⟨h0, h1, h2, h3⟩ := hlv
      rw [hpr]
      unfold emitAtLevel
      rw [if_neg h0, if_neg h1, if_neg h2, if_neg h3]
    · intro h0
      rw [hpr, h0]
      rfl
    · intro h1
      rw [hpr, h1]
      rfl
    · intro h2
      rw [hpr, h2]
      rfl
    · intro h3
      rw [hpr, h3]
      rfl

/-- Witness for the amended C8: the scenario-4 record has level 1 and its
message parses, so exactly one info-level structured log is emitted. -/
theorem C8_witness :
    processLogRecord validLogMsg =
      [HostLog.structured LogLevel.info
        (validLogMsg.FuncName.take (findEndIndex validLogMsg.FuncName))
        validLogMsg.Pid ([102, 100], 7) ([108, 101, 110], 128)
        ([99, 112, 117], 3) [114, 101, 97, 100, 32, 100, 111, 110, 101]] :=
  (C8_level_switch validLogMsg [114, 101, 97, 100, 32, 100, 111, 110, 101]
    ([102, 100], 7) ([108, 101, 110], 128) ([99, 112, 117], 3)
    (by decide)).2.2.1 rfl

/-- Tracepoint names in the order `DeployAndWait` links them
(main.go lines 225-304). -/
def tracepointNames : List String :=
  ["sys_enter_read", "sys_enter_write", "sys_exit_read", "sys_enter_sendto",
   "sys_enter_recvfrom", "sys_exit_recvfrom", "sys_exit_sendto",
   "sys_exit_write"]

/-- Observable actions of the modelled startup: a successful
`link.Tracepoint` call, a deferred `l.Close()` running, and the
`log.Logger.Fatal()` call on a failed link. -/
inductive StartupEvent where
  | attachOk (name : String)
  | close (name : String)
  | fatalLog (name : String)
  deriving DecidableEq

/-- Termination mode of the modelled startup. `exited`: the path through
`log.Logger.Fatal()`; modelled from the spec (the repo's `log` package is
not under src/), whose section 7 has fatal startup abort the process -
zerolog's `Fatal` ends the run with `os.Exit(1)`, and the Go runtime does
not execute pending deferred functions on `os.Exit`, so the trace ends at
the fatal log. `returned`: the non-fatal path, on which `DeployAndWait`
eventually returns and its deferred closes run in LIFO order. -/
inductive StartupOutcome where
  | exited (trace : List StartupEvent)
  | returned (trace : List StartupEvent)
  deriving DecidableEq

/-- Tests whether a startup event is a deferred `l.Close()` running. -/
def StartupEvent.isClose : StartupEvent → Bool
  | .close _ => true
  | _ => false

/-- Embedding of the tracepoint attach sequence of `DeployAndWait`
(main.go lines 225-304): each name in turn is passed to `link.Tracepoint`;
on error the code calls `log.Logger.Fatal()` (the `exited` outcome, pending
defers skipped); on success a `defer l.Close()` is pushed onto the defer
stack `ds` (head = last pushed = first to run). The phase between the
attach sequence and the eventual return (perf readers, pumps, waiting on the
context, main.go lines 306-505) attaches and closes no tracepoint and is
elided; on return the accumulated defers run. `fails` tells which
`link.Tracepoint` calls error. -/
def attachLoop (fails : String → Bool) :
    List String → List StartupEvent → List StartupEvent → StartupOutcome
  | [], trace, ds => .returned (trace ++ ds)
  | n :: rest, trace, ds =>
    if fails n then .exited (trace ++ [.fatalLog n])
    else attachLoop fails rest (trace ++ [.attachOk n]) (.close n :: ds)

/-- Startup of `DeployAndWait` from the first `link.Tracepoint` call. -/
def deployStartup (fails : String → Bool) : StartupOutcome :=
  attachLoop fails tracepointNames [] []

/-- Fatal outcomes of the attach loop: the failing name follows a prefix of
successful attaches, and the trace holds those attaches and the fatal log
only - in particular no close event. -/
theorem attachLoop_exited (fails : String → Bool) :
    ∀ (names : List String) (trace ds : List StartupEvent)
      (t : List StartupEvent), attachLoop fails names trace ds = .exited t →
      ∃ pre n post, names = pre ++ n :: post ∧
        (∀ m ∈ pre, fails m = false) ∧ fails n = true ∧
        t = trace ++ pre.map StartupEvent.attachOk ++ [StartupEvent.fatalLog n] := by
  intro names
  induction names with
  | nil => intro trace ds t h; simp [attachLoop] at h
  | cons n rest ih =>
    intro trace ds t h
    by_cases hf : fails n
    · rw [attachLoop, if_pos hf] at h
      simp only [StartupOutcome.exited.injEq] at h
      subst h
      exact ⟨[], n, rest, rfl, by simp, hf, by simp⟩
    · rw [attachLoop, if_neg hf] at h
      obtain ⟨pre, n1, post, hnames, hpre, hn1, ht⟩ := ih _ _ _ h
      refine ⟨n :: pre, n1, post, by simp [hnames], ?_, hn1, ?_⟩
      · intro m hm
        rcases List.mem_cons.mp hm with h1 | h1
        · subst h1
          exact Bool.not_eq_true _ ▸ (by simpa using hf)
        · exact hpre m h1
      · rw [ht]
        simp

/-- Non-fatal outcomes of the attach loop: every name attached without
error, and the trace is the attaches in order followed by the deferred
closes in reverse order. -/
theorem attachLoop_returned (fails : String → Bool) :
    ∀ (names : List String) (trace ds : List StartupEvent)
      (t : List StartupEvent), attachLoop fails names trace ds = .returned t →
      (∀ n ∈ names, fails n = false) ∧
      t = trace ++ names.map StartupEvent.attachOk ++
        names.reverse.map StartupEvent.close ++ ds := by
  intro names
  induction names with
  | nil =>
    intro trace ds t h
    simp only [attachLoop, StartupOutcome.returned.injEq] at h
    subst h
    simp
  | cons n rest ih =>
    intro trace ds t h
    by_cases hf : fails n
    · rw [attachLoop, if_pos hf] at h
      simp at h
    · rw [attachLoop, if_neg hf] at h
      obtain ⟨hall, ht⟩ := ih _ _ _ h
      constructor
      · intro m hm
        rcases List.mem_cons.mp hm with h1 | h1
        · subst h1
          simpa using hf
        · exact hall m h1
      · rw [ht]
        simp

/-- Closes never arise from mapping `attachOk` over names. -/
theorem filter_isClose_attachOk (pre : List String) :
    (pre.map StartupEvent.attachOk).filter StartupEvent.isClose = [] := by
  induction pre with
  | nil => rfl
  | cons a l ih => simp [List.filter_cons, StartupEvent.isClose, ih]

/-- C2 is false on the code: when linking `sys_enter_write` (attachment 2)
fails, the startup exits through `log.Logger.Fatal()` with
`sys_enter_read` attached and no close event in the trace - the deferred
`l.Close()` of attachment 1 never runs before the process aborts. -/
theorem C2_cex :
    deployStartup (fun n => n == "sys_enter_write") =
      .exited [.attachOk "sys_enter_read", .fatalLog "sys_enter_write"] ∧
    StartupEvent.close "sys_enter_read" ∉
      ([.attachOk "sys_enter_read", .fatalLog "sys_enter_write"] :
        List StartupEvent) := by
  decide

/-- C2 (amended): if attaching tracepoint N fails, the process aborts at
once via `log.Logger.Fatal()` and the deferred closes of attachments 1..N-1
do not run - the trace holds exactly the N-1 successful attaches and the
fatal log, with no close event; only on the non-fatal path are all eight
attachments closed, in reverse attach order, when `DeployAndWait` returns. -/
theorem C2_fatal_skips_defers (fails : String → Bool) :
    (∀ t, deployStartup fails = .exited t →
      t.filter StartupEvent.isClose = [] ∧
      ∃ pre n post, tracepointNames = pre ++ n :: post ∧
        (∀ m ∈ pre, fails m = false) ∧ fails n = true ∧
        t = pre.map StartupEvent.attachOk ++ [StartupEvent.fatalLog n]) ∧
    (∀ t, deployStartup fails = .returned t →
      (∀ n ∈ tracepointNames, fails n = false) ∧
      t = tracepointNames.map StartupEvent.attachOk ++
        tracepointNames.reverse.map StartupEvent.close) := by
  constructor
  · intro t h
    obtain ⟨pre, n, post, hnames, hpre, hn, ht⟩ :=
      attachLoop_exited fails tracepointNames [] [] t h
    subst ht
    refine ⟨?_, pre, n, post, hnames, hpre, hn, by simp⟩
    simp [List.filter_append, filter_isClose_attachOk, StartupEvent.isClose]
  · intro t h
    obtain ⟨hall, ht⟩ := attachLoop_returned fails tracepointNames [] [] t h
    subst ht
    exact ⟨hall, by simp⟩

/-- Witness for the amended C2: with attachment 2 failing, the exited trace
holds no close event. -/
theorem C2_witness :
    ([StartupEvent.attachOk "sys_enter_read",
      StartupEvent.fatalLog "sys_enter_write"] :
        List StartupEvent).filter StartupEvent.isClose = [] :=
  ((C2_fatal_skips_defers (fun n => n == "sys_enter_write")).1
    [StartupEvent.attachOk "sys_enter_read",
     StartupEvent.fatalLog "sys_enter_write"] (by decide)).1
